import Mathlib

/-!
Shallow embedding of the popular-names Streamlit application
(file popular_names_app.py).

The application downloads a ZIP archive of per-year name files,
parses every archive entry whose name ends in ".txt" as a headerless
comma-separated table with columns (name, sex, count), tags each record
with the year extracted as a Python integer from characters 3..6 of the
entry name, concatenates everything into one table, and derives the
per-(year, sex) proportion columns pct and prop.

Modelling conventions:
- an archive is a list of entries, each carrying a name and its decoded
  text content as a list of lines (ZIP decompression itself is byte-level
  I/O and is not modelled);
- the pandas CSV reader is modelled row by row: blank lines are skipped,
  each remaining line is split on commas, a row longer than the first row
  is a tokenizer error, a shorter row is padded with missing values, and
  the three column names are attached only when the first row has exactly
  three fields;
- the Python function int is modelled on ASCII strings, including the
  stripping of surrounding whitespace, an optional sign and underscore
  digit grouping;
- floating point division is modelled by exact rational division, with
  the value recorded as none when the denominator is zero (pandas yields
  NaN or an infinity there, i.e. no real number);
- all definitions are executable and kernel-computable.
-/

/-- Lower-case an ASCII letter, the character-level part of the model of
the Python method str.lower used on line 65 of the source. -/
def charLower (c : Char) : Char :=
  if 'A' ≤ c ∧ c ≤ 'Z' then Char.ofNat (c.toNat + 32) else c

/-- Model of the Python method str.lower restricted to ASCII strings. -/
def strLower (s : String) : String :=
  (s.toList.map charLower).asString

/-- ASCII whitespace, as stripped by the Python function int. -/
def isSpaceChar (c : Char) : Bool :=
  c == ' ' || c == '\t' || c == '\n' || c == '\r' || c == '\x0b' || c == '\x0c'

/-- Strip leading and trailing whitespace from a character list. -/
def trimChars (cs : List Char) : List Char :=
  ((cs.dropWhile isSpaceChar).reverse.dropWhile isSpaceChar).reverse

/-- Model of the Python method str.endswith, used on line 18 of the source
to select archive entries. -/
def strEndsWith (s t : String) : Bool :=
  t.toList.reverse == (s.toList.reverse).take t.toList.length

/-- Model of the Python slice s[a:b] (with 0 ≤ a ≤ b), used on line 23 of
the source as file[3:7]. -/
def strSlice (s : String) (a b : Nat) : String :=
  ((s.toList.drop a).take (b - a)).asString

/-- Split a list of characters at every comma. -/
def splitCommaChars : List Char → List (List Char)
  | [] => [[]]
  | ',' :: rest => [] :: splitCommaChars rest
  | c :: rest =>
    match splitCommaChars rest with
    | [] => [[c]]
    | g :: gs => (c :: g) :: gs

/-- Split a string into its comma-separated fields (the source data is
unquoted, so plain splitting models the pandas tokenizer). -/
def splitComma (s : String) : List String :=
  (splitCommaChars s.toList).map List.asString

/-- After a leading digit, the Python integer grammar allows further
digits with single underscores strictly between digits. -/
def digitTail : List Char → Bool
  | [] => true
  | '_' :: c :: rest => c.isDigit && digitTail rest
  | '_' :: [] => false
  | c :: rest => c.isDigit && digitTail rest

/-- A nonempty digit group of the Python integer grammar:
digit (["_"] digit)*. -/
def digitGroupOk : List Char → Bool
  | [] => false
  | c :: rest => c.isDigit && digitTail rest

/-- Numeric value of a list of decimal digits. -/
def digitsVal (cs : List Char) : Int :=
  cs.foldl (fun a c => a * 10 + ((c.toNat : Int) - 48)) 0

/-- Model of the Python function int on strings: surrounding whitespace
is stripped, an optional sign is allowed, then a digit group with
underscore grouping; the result is none when Python raises ValueError. -/
def pyInt? (s : String) : Option Int :=
  match trimChars s.toList with
  | '+' :: rest =>
    if digitGroupOk rest then some (digitsVal (rest.filter (fun c => c != '_'))) else none
  | '-' :: rest =>
    if digitGroupOk rest then some (-(digitsVal (rest.filter (fun c => c != '_')))) else none
  | cs =>
    if digitGroupOk cs then some (digitsVal (cs.filter (fun c => c != '_'))) else none

/-- The error outcomes of the loading pipeline (lines 16-25 of the
source): pandas EmptyDataError on an entry with no rows, a pandas
tokenizer error on an over-long row, the ValueError of the column
assignment on line 22, the ValueError of int() on line 23, and the
ValueError of pd.concat on line 25 when no entry was selected. -/
inductive ParseError where
  | emptyData : ParseError
  | tokenize : ParseError
  | columnMismatch : ParseError
  | badYear : String → ParseError
  | emptyConcat : ParseError
deriving DecidableEq

/-- One entry of the downloaded ZIP archive: its name in the archive
directory and its decoded content as a list of text lines. -/
structure ZipEntry where
  name : String
  lines : List String
deriving DecidableEq

/-- One row of the unified table as the loader builds it (lines 21-23 of
the source): the three cells of the row (none models a NaN produced by
padding a short row) and the year taken from the entry name. -/
structure RawRecord where
  name : Option String
  sex : Option String
  count : Option String
  year : Int
deriving DecidableEq

instance {ε α : Type} [DecidableEq ε] [DecidableEq α] : DecidableEq (Except ε α) := fun x y =>
  match x, y with
  | .error a, .error b =>
    if h : a = b then .isTrue (by rw [h]) else .isFalse (fun hc => h (Except.error.inj hc))
  | .ok a, .ok b =>
    if h : a = b then .isTrue (by rw [h]) else .isFalse (fun hc => h (Except.ok.inj hc))
  | .error _, .ok _ => .isFalse (fun hc => Except.noConfusion hc)
  | .ok _, .error _ => .isFalse (fun hc => Except.noConfusion hc)

/-- Build one raw record from the fields of one CSV row; fields beyond
the third never occur (the tokenizer rejects them first) and missing
fields become none, the model of the NaN padding of pandas. -/
def mkRaw (fields : List String) (y : Int) : RawRecord :=
  { name := fields[0]?, sex := fields[1]?, count := fields[2]?, year := y }

/-- Parse the non-blank lines of one archive entry, the model of lines
21-23 of the source: pd.read_csv with header=None, the assignment of the
three column names, and the year column int(file[3:7]). -/
def parseRows (ename : String) : List String → Except ParseError (List RawRecord)
  | [] => .error .emptyData
  | l0 :: rest =>
    if (l0 :: rest).any (fun l => decide ((splitComma l0).length < (splitComma l).length)) then
      .error .tokenize
    else if (splitComma l0).length ≠ 3 then
      .error .columnMismatch
    else
      match pyInt? (strSlice ename 3 7) with
      | none => .error (.badYear (strSlice ename 3 7))
      | some y => .ok ((l0 :: rest).map (fun l => mkRaw (splitComma l) y))

/-- Parse one archive entry: pandas skips blank lines, and an entry with
no remaining line raises EmptyDataError. -/
def parseEntry (e : ZipEntry) : Except ParseError (List RawRecord) :=
  parseRows e.name (e.lines.filter (fun l => l != ""))

/-- The loop of lines 19-24 of the source followed by the concatenation
of line 25: entries are processed in archive order, the first failure
aborts the run, and the per-entry tables are concatenated in order. -/
def parseAll : List ZipEntry → Except ParseError (List RawRecord)
  | [] => .ok []
  | e :: es =>
    match parseEntry e with
    | .error err => .error err
    | .ok rs =>
      match parseAll es with
      | .error err => .error err
      | .ok rest => .ok (rs ++ rest)

/-- The Dataset Loader, lines 16-25 of the source: select the archive
entries whose names end in ".txt", parse each of them, and concatenate;
pd.concat raises when no entry was selected. -/
def load_name_data (archive : List ZipEntry) : Except ParseError (List RawRecord) :=
  let files := archive.filter (fun e => strEndsWith e.name ".txt")
  if files.isEmpty then .error .emptyConcat else parseAll files

/-- An integer token as the pandas CSV reader types it: an optional sign
followed by one or more digits. -/
def strictInt? (s : String) : Option Int :=
  match s.toList with
  | '+' :: cs => if cs ≠ [] ∧ cs.all Char.isDigit then some (digitsVal cs) else none
  | '-' :: cs => if cs ≠ [] ∧ cs.all Char.isDigit then some (-(digitsVal cs)) else none
  | cs => if cs ≠ [] ∧ cs.all Char.isDigit then some (digitsVal cs) else none

/-- One row of the unified table once every cell is present and the
count column has integer type, the situation in which the arithmetic of
lines 28 and 35-36 of the source operates on numbers. -/
structure Record where
  name : String
  sex : String
  count : Int
  year : Int
deriving DecidableEq

/-- Type one raw record: all three cells present and an integer count. -/
def toRecord? (r : RawRecord) : Option Record := do
  let n ← r.name
  let s ← r.sex
  let c ← r.count
  let cv ← strictInt? c
  some { name := n, sex := s, count := cv, year := r.year }

/-- Type a whole raw table (pandas gives the count column integer type
exactly when every cell of the column is an integer token). -/
def typedTable? (rs : List RawRecord) : Option (List Record) :=
  rs.mapM toRecord?

/-- The rows of the (year, sex) group of a table, the grouping of
data.groupby(["year", "sex"]) on lines 28 and 35 of the source. -/
def groupRows (t : List Record) (y : Int) (s : String) : List Record :=
  t.filter (fun r => r.year == y && r.sex == s)

/-- The grouped sum transform("sum") of lines 28 and 35 of the source:
the total count of the (year, sex) group. -/
def groupTotal (t : List Record) (y : Int) (s : String) : Int :=
  ((groupRows t y s).map (fun r => r.count)).sum

/-- The pct column of line 28 of the source: the count of the row
divided by the total of its (year, sex) group; none models the NaN or
infinity that floating point division by zero produces. -/
def pct (t : List Record) (r : Record) : Option ℚ :=
  if groupTotal t r.year r.sex = 0 then none
  else some ((r.count : ℚ) / (groupTotal t r.year r.sex : ℚ))

/-- The total_births column of line 35 of the source, written as the
code writes it: the same grouped sum transform, recomputed. -/
def total_births (t : List Record) (r : Record) : Int :=
  ((t.filter (fun x => x.year == r.year && x.sex == r.sex)).map (fun x => x.count)).sum

/-- The prop column (named prop in the source, renamed here since Lean already declares that name) of line 36 of the source: count divided by
total_births, with the same division-by-zero convention as pct. -/
def propCol (t : List Record) (r : Record) : Option ℚ :=
  if total_births t r = 0 then none
  else some ((r.count : ℚ) / (total_births t r : ℚ))

/-- The enriched table: every row paired with its pct value. -/
def enrich (t : List Record) : List (Record × Option ℚ) :=
  t.map (fun r => (r, pct t r))

/-- Addition of floating point values: any NaN (none) poisons the
result, matching IEEE propagation. -/
def addOpt (o p : Option ℚ) : Option ℚ :=
  match o, p with
  | some a, some b => some (a + b)
  | _, _ => none

/-- Sum of a list of floating point values: any NaN (none) poisons the
sum, matching IEEE propagation through pandas sums. -/
def sumOpt : List (Option ℚ) → Option ℚ
  | [] => some 0
  | o :: os => addOpt o (sumOpt os)

/-- The sum of the proportion column over a (year, sex) group. -/
def groupPctSum (t : List Record) (y : Int) (s : String) : Option ℚ :=
  sumOpt ((groupRows t y s).map (fun r => pct t r))

/-- The filter of lines 64-65 of the source: keep the rows whose year
lies in the inclusive range and whose lower-cased name equals the
lower-cased query. -/
def filtered_data (t : List Record) (lo hi : Int) (q : String) : List Record :=
  t.filter (fun r => decide (lo ≤ r.year ∧ r.year ≤ hi) && (strLower r.name == strLower q))

/-- The row selected by idxmax on line 105 of the source: the first row
attaining the maximal count. -/
def firstMax : List Record → Option Record
  | [] => none
  | r :: rs =>
    match firstMax rs with
    | none => some r
    | some m => if m.count ≤ r.count then some r else some m

/-- Line 105 of the source: the year of the first row of maximal count
of the filtered table (none on an empty table, where the code never
evaluates it). -/
def most_popular_year (t : List Record) : Option Int :=
  (firstMax t).map (fun r => r.year)

/-- Modelled from the spec: the per-year record-file naming convention
yob YYYY .txt (a fixed three-letter head, a 4-digit year, the fixed
extension), which the spec says the Loader matches entries against; the
source only checks the extension, so this definition follows the words
of the spec for comparison. -/
def matchesConvention (s : String) : Bool :=
  decide (s.toList.length = 11) && (strSlice s 0 3 == "yob") &&
    (strSlice s 7 11 == ".txt") && (strSlice s 3 7).toList.all Char.isDigit

/-- Modelled from the spec: a valid 4-digit year string, the condition
the spec places on the substring extracted from an entry name. -/
def isFourDigitYear (s : String) : Bool :=
  decide (s.toList.length = 4) && s.toList.all Char.isDigit

/-! ### Helper lemmas about groups and sums -/

lemma mem_groupRows {t : List Record} {y : Int} {s : String} {r : Record} :
    r ∈ groupRows t y s ↔ r ∈ t ∧ r.year = y ∧ r.sex = s := by
  simp [groupRows, List.mem_filter]

lemma sumOpt_map_some {α : Type} (f : α → ℚ) (l : List α) :
    sumOpt (l.map (fun x => some (f x))) = some ((l.map f).sum) := by
  induction l with
  | nil => simp [sumOpt]
  | cons a as ih => simp [sumOpt, addOpt, ih]

lemma sum_map_div {α : Type} (g : α → ℚ) (c : ℚ) (l : List α) :
    (l.map (fun x => g x / c)).sum = (l.map g).sum / c := by
  induction l with
  | nil => simp
  | cons a as ih => simp [ih, add_div]

lemma sum_map_intCast (l : List Record) :
    (l.map (fun r => (r.count : ℚ))).sum = (((l.map (fun r => r.count)).sum : ℤ) : ℚ) := by
  induction l with
  | nil => simp
  | cons a as ih => simp only [List.map_cons, List.sum_cons, ih]; push_cast; ring

lemma pct_of_mem_groupRows {t : List Record} {y : Int} {s : String} {r : Record}
    (hr : r ∈ groupRows t y s) (h : groupTotal t y s ≠ 0) :
    pct t r = some ((r.count : ℚ) / (groupTotal t y s : ℚ)) := by
  obtain ⟨-, hy, hs⟩ := mem_groupRows.mp hr
  simp [pct, hy, hs, h]

/-- C1 (amended): for every (year, sex) group of the enriched table whose
total count is nonzero, the proportion column sums to exactly 1 over the
rows of the group. -/
theorem groupPctSum_eq_one (t : List Record) (y : Int) (s : String)
    (h : groupTotal t y s ≠ 0) : groupPctSum t y s = some 1 := by
  have hmap : (groupRows t y s).map (fun r => pct t r)
      = (groupRows t y s).map
          (fun r => some ((r.count : ℚ) / (groupTotal t y s : ℚ))) :=
    List.map_congr_left (fun r hr => pct_of_mem_groupRows hr h)
  have hc : ((groupTotal t y s : ℤ) : ℚ) ≠ 0 := Int.cast_ne_zero.mpr h
  rw [groupPctSum, hmap, sumOpt_map_some, sum_map_div, sum_map_intCast]
  rw [show (groupRows t y s).map (fun r => r.count)
        = (groupRows t y s).map (fun r => r.count) from rfl]
  rw [show ((groupRows t y s).map (fun r => r.count)).sum = groupTotal t y s from rfl]
  rw [div_self hc]

/-- C1 witness: a concrete one-row group with nonzero total sums to 1. -/
theorem groupPctSum_eq_one_witness :
    groupPctSum [{ name := "Alice", sex := "F", count := 100, year := 1999 }] 1999 "F"
      = some 1 :=
  groupPctSum_eq_one _ 1999 "F" (by decide)

/-- C1 counterexample: the loader accepts the archive entry yob1999.txt
with the single row Alice,F,0; the (1999, F) group of the resulting
enriched table is nonempty, yet its proportion sum is NaN (none), not 1:
the claim fails without a nonzero-total hypothesis. -/
theorem groupPctSum_zero_group_counterexample :
    load_name_data [⟨"yob1999.txt", ["Alice,F,0"]⟩]
        = .ok [⟨some "Alice", some "F", some "0", 1999⟩]
      ∧ typedTable? [⟨some "Alice", some "F", some "0", 1999⟩]
        = some [{ name := "Alice", sex := "F", count := 0, year := 1999 }]
      ∧ groupRows [{ name := "Alice", sex := "F", count := 0, year := 1999 }] 1999 "F" ≠ []
      ∧ groupPctSum [{ name := "Alice", sex := "F", count := 0, year := 1999 }] 1999 "F"
          ≠ some 1 := by
  refine ⟨by decide, by decide, by decide, by decide⟩

/-- C5 (amended): every proportion of the enriched table lies in [0, 1],
given that every count is non-negative and that the total of the row's
(year, sex) group is nonzero (otherwise the division yields NaN). -/
theorem pct_mem_unit_interval (t : List Record) (r : Record)
    (hnn : ∀ x ∈ t, 0 ≤ x.count) (hr : r ∈ t)
    (h : groupTotal t r.year r.sex ≠ 0) :
    ∃ q : ℚ, pct t r = some q ∧ 0 ≤ q ∧ q ≤ 1 := by
  have hg : r ∈ groupRows t r.year r.sex := mem_groupRows.mpr ⟨hr, rfl, rfl⟩
  have hnnG : ∀ x ∈ (groupRows t r.year r.sex).map (fun x => x.count), (0 : ℤ) ≤ x := by
    intro x hx
    obtain ⟨a, ha, rfl⟩ := List.mem_map.mp hx
    exact hnn a (mem_groupRows.mp ha).1
  have h0T : (0 : ℤ) ≤ groupTotal t r.year r.sex := List.sum_nonneg hnnG
  have hpos : (0 : ℤ) < groupTotal t r.year r.sex := lt_of_le_of_ne h0T (Ne.symm h)
  have hle : r.count ≤ groupTotal t r.year r.sex :=
    List.single_le_sum hnnG _ (List.mem_map.mpr ⟨r, hg, rfl⟩)
  refine ⟨(r.count : ℚ) / (groupTotal t r.year r.sex : ℚ),
    pct_of_mem_groupRows hg h, ?_, ?_⟩
  · exact div_nonneg (by exact_mod_cast hnn r hr) (by exact_mod_cast h0T)
  · rw [div_le_one (by exact_mod_cast hpos)]
    exact_mod_cast hle

/-- C5 witness: a concrete proportion lies in [0, 1]. -/
theorem pct_mem_unit_interval_witness :
    ∃ q : ℚ,
      pct [{ name := "Ann", sex := "F", count := 60, year := 1999 },
           { name := "Ann", sex := "F", count := 40, year := 1999 }]
          { name := "Ann", sex := "F", count := 60, year := 1999 } = some q
        ∧ 0 ≤ q ∧ q ≤ 1 :=
  pct_mem_unit_interval _ _ (by decide) (by decide) (by decide)

/-- C5 counterexample: the loader accepts the rows Ann,F,0 and Bob,M,3
(all counts non-negative); the proportion of the Ann row is NaN (none),
which lies in no interval, so the claim fails as stated. -/
theorem pct_nan_counterexample :
    load_name_data [⟨"yob2001.txt", ["Ann,F,0", "Bob,M,3"]⟩]
        = .ok [⟨some "Ann", some "F", some "0", 2001⟩,
               ⟨some "Bob", some "M", some "3", 2001⟩]
      ∧ typedTable? [⟨some "Ann", some "F", some "0", 2001⟩,
                     ⟨some "Bob", some "M", some "3", 2001⟩]
        = some [{ name := "Ann", sex := "F", count := 0, year := 2001 },
                { name := "Bob", sex := "M", count := 3, year := 2001 }]
      ∧ pct [{ name := "Ann", sex := "F", count := 0, year := 2001 },
             { name := "Bob", sex := "M", count := 3, year := 2001 }]
            { name := "Ann", sex := "F", count := 0, year := 2001 } = none :=
  ⟨by decide, by decide, by decide⟩

/-- C6: the loader keeps duplicate (name, sex, year) rows, their counts
add up in the group total, and the proportions of the two Alice rows of
the scenario are 0.6 and 0.4 against the group total 100. -/
theorem duplicate_rows_additive :
    load_name_data [⟨"yob1999.txt", ["Alice,F,60", "Alice,F,40"]⟩]
        = .ok [⟨some "Alice", some "F", some "60", 1999⟩,
               ⟨some "Alice", some "F", some "40", 1999⟩]
      ∧ typedTable? [⟨some "Alice", some "F", some "60", 1999⟩,
                     ⟨some "Alice", some "F", some "40", 1999⟩]
        = some [{ name := "Alice", sex := "F", count := 60, year := 1999 },
                { name := "Alice", sex := "F", count := 40, year := 1999 }]
      ∧ groupTotal [{ name := "Alice", sex := "F", count := 60, year := 1999 },
                    { name := "Alice", sex := "F", count := 40, year := 1999 }] 1999 "F" = 100
      ∧ enrich [{ name := "Alice", sex := "F", count := 60, year := 1999 },
                { name := "Alice", sex := "F", count := 40, year := 1999 }]
        = [({ name := "Alice", sex := "F", count := 60, year := 1999 }, some (0.6 : ℚ)),
           ({ name := "Alice", sex := "F", count := 40, year := 1999 }, some (0.4 : ℚ))] := by
  refine ⟨by decide, by decide, by decide, ?_⟩
  simp [enrich, pct, groupTotal, groupRows, List.filter]
  norm_num

/-- C10: the pct column of line 28 and the prop column of lines 35-36
are the same function of the table: the grouped total recomputed as
total_births on line 35 is the grouped total of line 28, so the two
divisions agree on every row. -/
theorem pct_eq_propCol (t : List Record) (r : Record) : pct t r = propCol t r := rfl

/-- C7: filtering by a name absent from the table (no row matches the
query case-insensitively), or by a year range wholly outside the span of
the table, yields the empty subset; the filter is a total function, so
no error is possible. -/
theorem filtered_data_empty (t : List Record) (lo hi : Int) (q : String) :
    ((∀ r ∈ t, strLower r.name ≠ strLower q) → filtered_data t lo hi q = [])
    ∧ ((∀ r ∈ t, r.year < lo ∨ hi < r.year) → filtered_data t lo hi q = []) := by
  constructor
  · intro h
    rw [filtered_data, List.filter_eq_nil_iff]
    intro r hr
    simp only [Bool.and_eq_true, decide_eq_true_eq, beq_iff_eq, not_and]
    exact fun _ => h r hr
  · intro h
    rw [filtered_data, List.filter_eq_nil_iff]
    intro r hr
    simp only [Bool.and_eq_true, decide_eq_true_eq, beq_iff_eq, not_and]
    rintro ⟨h1, h2⟩
    rcases h r hr with hy | hy <;> omega
  
/-- C7 witness: a name absent from a concrete table, and a year range
outside its span, both give the empty subset. -/
theorem filtered_data_empty_witness :
    filtered_data [{ name := "Bob", sex := "M", count := 5, year := 1999 }] 1900 2000 "Alice" = []
    ∧ filtered_data [{ name := "Bob", sex := "M", count := 5, year := 1999 }] 2005 2010 "Bob" = [] :=
  ⟨(filtered_data_empty _ 1900 2000 "Alice").1 (by decide),
   (filtered_data_empty _ 2005 2010 "Bob").2 (by decide)⟩

lemma firstMax_spec : ∀ (l : List Record), l ≠ [] →
    ∃ r, firstMax l = some r ∧ r ∈ l ∧ ∀ x ∈ l, x.count ≤ r.count := by
  intro l
  induction l with
  | nil => exact fun h => absurd rfl h
  | cons a as ih =>
    intro _
    by_cases ha : as = []
    · subst ha
      refine ⟨a, by simp [firstMax], List.mem_cons_self a _, ?_⟩
      intro x hx
      rw [List.mem_singleton.mp hx]
    · obtain ⟨m, hm, hmem, hmax⟩ := ih ha
      by_cases hcmp : m.count ≤ a.count
      · refine ⟨a, by simp [firstMax, hm, hcmp], List.mem_cons_self a _, ?_⟩
        intro x hx
        rcases List.mem_cons.mp hx with hxa | hxs
        · rw [hxa]
        · exact le_trans (hmax x hxs) hcmp
      · refine ⟨m, by simp [firstMax, hm, hcmp], List.mem_cons_of_mem _ hmem, ?_⟩
        intro x hx
        rcases List.mem_cons.mp hx with hxa | hxs
        · rw [hxa]; exact le_of_lt (lt_of_not_le hcmp)
        · exact hmax x hxs

/-- C9: on a non-empty filtered subset (case-insensitive name match and
inclusive year range), the reported most popular year is the year of a
row of the subset whose count is maximal in the subset. -/
theorem most_popular_year_is_max (t : List Record) (lo hi : Int) (q : String)
    (h : filtered_data t lo hi q ≠ []) :
    ∃ r, r ∈ filtered_data t lo hi q
      ∧ most_popular_year (filtered_data t lo hi q) = some r.year
      ∧ ∀ x ∈ filtered_data t lo hi q, x.count ≤ r.count := by
  obtain ⟨r, hfm, hmem, hmax⟩ := firstMax_spec _ h
  exact ⟨r, hmem, by simp [most_popular_year, hfm], hmax⟩

/-- C9 witness: a concrete two-row filtered subset has a reported year
carried by a row of maximal count. -/
theorem most_popular_year_is_max_witness :
    ∃ r, r ∈ filtered_data [{ name := "Ann", sex := "F", count := 7, year := 1950 },
                            { name := "Ann", sex := "F", count := 9, year := 1960 }] 1900 2000 "ANN"
      ∧ most_popular_year (filtered_data [{ name := "Ann", sex := "F", count := 7, year := 1950 },
                            { name := "Ann", sex := "F", count := 9, year := 1960 }] 1900 2000 "ANN")
          = some r.year
      ∧ ∀ x ∈ filtered_data [{ name := "Ann", sex := "F", count := 7, year := 1950 },
                            { name := "Ann", sex := "F", count := 9, year := 1960 }] 1900 2000 "ANN",
          x.count ≤ r.count :=
  most_popular_year_is_max _ 1900 2000 "ANN" (by decide)

/-- C8: the Loader is a pure function of the archive entries, so two
runs on the same archive bytes give tables that are equal, in particular
equal up to row order. -/
theorem load_name_data_deterministic (a₁ a₂ : List ZipEntry) (h : a₁ = a₂)
    (t₁ t₂ : List RawRecord) (h₁ : load_name_data a₁ = .ok t₁)
    (h₂ : load_name_data a₂ = .ok t₂) : t₁.Perm t₂ := by
  subst h
  rw [h₁] at h₂
  exact (Except.ok.inj h₂) ▸ List.Perm.refl t₁

/-- C8 witness: two runs on a concrete archive agree up to row order. -/
theorem load_name_data_deterministic_witness :
    ([⟨some "Ann", some "F", some "2", 1980⟩] : List RawRecord).Perm
      [⟨some "Ann", some "F", some "2", 1980⟩] :=
  load_name_data_deterministic [⟨"yob1980.txt", ["Ann,F,2"]⟩] _ rfl _ _ (by decide) (by decide)

/-! ### Loader lemmas -/

lemma h3_filter {e : ZipEntry} (h3 : ∀ l ∈ e.lines, l ≠ "" → (splitComma l).length = 3) :
    ∀ l ∈ e.lines.filter (fun l => l != ""), (splitComma l).length = 3 := by
  intro l hl
  obtain ⟨hmem, hne⟩ := List.mem_filter.mp hl
  exact h3 l hmem (by simpa using hne)

lemma parseRows_ok_of_rows3 (ename : String) (l0 : String) (rest : List String) (y : Int)
    (h3 : ∀ l ∈ l0 :: rest, (splitComma l).length = 3)
    (hy : pyInt? (strSlice ename 3 7) = some y) :
    parseRows ename (l0 :: rest)
      = .ok ((l0 :: rest).map (fun l => mkRaw (splitComma l) y)) := by
  have h0 : (splitComma l0).length = 3 := h3 l0 (List.mem_cons_self _ _)
  simp [parseRows, h0, hy]
  exact fun x hx => le_of_eq (h3 x (List.mem_cons_of_mem _ hx))

lemma parseRows_badYear_of_rows3 (ename : String) (l0 : String) (rest : List String)
    (h3 : ∀ l ∈ l0 :: rest, (splitComma l).length = 3)
    (hy : pyInt? (strSlice ename 3 7) = none) :
    parseRows ename (l0 :: rest) = .error (.badYear (strSlice ename 3 7)) := by
  have h0 : (splitComma l0).length = 3 := h3 l0 (List.mem_cons_self _ _)
  simp [parseRows, h0, hy]
  exact fun x hx => le_of_eq (h3 x (List.mem_cons_of_mem _ hx))

/-- C2 (amended): the Loader selects entries by the ".txt" extension
only; an entry whose name does not end in ".txt" is skipped, i.e. its
presence anywhere in the archive leaves the result unchanged. -/
theorem non_txt_entries_ignored (a₁ a₂ : List ZipEntry) (e : ZipEntry)
    (h : strEndsWith e.name ".txt" = false) :
    load_name_data (a₁ ++ e :: a₂) = load_name_data (a₁ ++ a₂) := by
  simp [load_name_data, List.filter_append, List.filter_cons, h]

/-- C2 witness: a PDF entry in the archive does not change the result. -/
theorem non_txt_entries_ignored_witness :
    load_name_data ([] ++ (⟨"NationalReadMe.pdf", ["junk"]⟩ : ZipEntry) :: []) =
      load_name_data ([] ++ []) :=
  non_txt_entries_ignored [] [] ⟨"NationalReadMe.pdf", ["junk"]⟩ (by decide)

/-- C2 counterexample: the entry abc2000.txt does not match the
per-year naming convention (its head is not yob), yet the Loader parses
it and includes its records, because only the extension is checked. -/
theorem non_conventional_txt_parsed_counterexample :
    matchesConvention "abc2000.txt" = false
      ∧ load_name_data [⟨"abc2000.txt", ["Alice,F,1"]⟩]
          = .ok [⟨some "Alice", some "F", some "1", 2000⟩] :=
  ⟨by decide, by decide⟩

/-- C3 (amended): when every non-blank row of an entry has exactly three
comma-separated fields and the year slice of the entry name parses as a
Python integer, parsing succeeds and every row yields one record with
cells (name, sex, count) taken verbatim; the count cell is not
validated. -/
theorem parseEntry_ok_of_three_fields (e : ZipEntry) (y : Int)
    (h3 : ∀ l ∈ e.lines, l ≠ "" → (splitComma l).length = 3)
    (hne : e.lines.filter (fun l => l != "") ≠ [])
    (hy : pyInt? (strSlice e.name 3 7) = some y) :
    parseEntry e
      = .ok ((e.lines.filter (fun l => l != "")).map (fun l => mkRaw (splitComma l) y)) := by
  rw [parseEntry]
  cases hf : e.lines.filter (fun l => l != "") with
  | nil => exact absurd hf hne
  | cons l0 rest =>
    exact parseRows_ok_of_rows3 _ _ _ _ (fun l hl => h3_filter h3 l (hf ▸ hl)) hy

/-- C3 witness: a row whose count field is not a number still parses. -/
theorem parseEntry_ok_of_three_fields_witness :
    parseEntry ⟨"yob1999.txt", ["Alice,F,hi"]⟩
      = .ok (((["Alice,F,hi"] : List String).filter (fun l => l != "")).map
          (fun l => mkRaw (splitComma l) 1999)) :=
  parseEntry_ok_of_three_fields ⟨"yob1999.txt", ["Alice,F,hi"]⟩ 1999
    (by decide) (by decide) (by decide)

/-- C3 counterexample: a non-numeric count field (hello) and a row with
only two fields are both ingested without any ParseError, contradicting
the claimed validation. -/
theorem count_not_validated_counterexample :
    load_name_data [⟨"yob1999.txt", ["Alice,F,hello"]⟩]
        = .ok [⟨some "Alice", some "F", some "hello", 1999⟩]
      ∧ load_name_data [⟨"yob1998.txt", ["Alice,F,1", "Bob,M"]⟩]
        = .ok [⟨some "Alice", some "F", some "1", 1998⟩,
               ⟨some "Bob", some "M", none, 1998⟩] :=
  ⟨by decide, by decide⟩

/-- C4 (amended): for a well-formed ".txt" entry, when the year slice of
the name fails to parse as a Python integer the whole run fails with the
bad-year error (the entry is not silently skipped), and when it parses
as y, every record of the entry carries year y. -/
theorem year_from_name (e : ZipEntry)
    (htxt : strEndsWith e.name ".txt" = true)
    (h3 : ∀ l ∈ e.lines, l ≠ "" → (splitComma l).length = 3)
    (hne : e.lines.filter (fun l => l != "") ≠ []) :
    (pyInt? (strSlice e.name 3 7) = none →
        load_name_data [e] = .error (.badYear (strSlice e.name 3 7)))
    ∧ (∀ y : Int, pyInt? (strSlice e.name 3 7) = some y →
        ∃ rs, load_name_data [e] = .ok rs ∧ rs ≠ [] ∧ ∀ r ∈ rs, r.year = y) := by
  have hload : load_name_data [e] = parseAll [e] := by
    simp [load_name_data, List.filter_cons, htxt]
  constructor
  · intro hy
    rw [hload]
    have hp : parseEntry e = .error (.badYear (strSlice e.name 3 7)) := by
      rw [parseEntry]
      cases hf : e.lines.filter (fun l => l != "") with
      | nil => exact absurd hf hne
      | cons l0 rest =>
        exact parseRows_badYear_of_rows3 _ _ _ (fun l hl => h3_filter h3 l (hf ▸ hl)) hy
    simp [parseAll, hp]
  · intro y hy
    cases hf : e.lines.filter (fun l => l != "") with
    | nil => exact absurd hf hne
    | cons l0 rest =>
      have hp : parseEntry e = .ok ((l0 :: rest).map (fun l => mkRaw (splitComma l) y)) := by
        rw [parseEntry, hf]
        exact parseRows_ok_of_rows3 _ _ _ _ (fun l hl => h3_filter h3 l (hf ▸ hl)) hy
      refine ⟨(l0 :: rest).map (fun l => mkRaw (splitComma l) y),
        by simp [hload, parseAll, hp], by simp, ?_⟩
      intro r hr
      obtain ⟨l, -, hrl⟩ := List.mem_map.mp hr
      rw [← hrl]
      rfl

/-- C4 witness: an entry with a non-numeric year slice makes the whole
run fail with the bad-year error. -/
theorem year_from_name_witness :
    load_name_data [⟨"yobQQQQ.txt", ["a,b,c"]⟩]
      = .error (.badYear (strSlice "yobQQQQ.txt" 3 7)) :=
  (year_from_name ⟨"yobQQQQ.txt", ["a,b,c"]⟩ (by decide) (by decide) (by decide)).1 (by decide)

/-- C4 counterexample: the slice of yob 123.txt at offsets 3..6 is
" 123", which is not a valid 4-digit year, yet the Loader raises no
error: the Python function int strips the blank and the records get
year 123. -/
theorem year_slice_lenient_counterexample :
    isFourDigitYear (strSlice "yob 123.txt" 3 7) = false
      ∧ load_name_data [⟨"yob 123.txt", ["Alice,F,1"]⟩]
        = .ok [⟨some "Alice", some "F", some "1", 123⟩] :=
  ⟨by decide, by decide⟩
